import Mathlib

set_option linter.dupNamespace false

/-!
# Torch database / trainer: binary array files and the data shuffler

A shallow embedding of

* `src/cxx/database/database/BinFile.h` : the open-mode flags, the private
  checks `headerInitialized` and `endOfFile`, and the metadata accessors of
  `Torch::database::BinFile`;
* `src/cxx/trainer/src/DataShuffler.cc` : the `DataShuffler` constructor and
  the three standard-normalisation helpers.

C++ `size_t` values are natural numbers, `double` values are rationals (exact
arithmetic), and a member function that may throw returns the exception or the
value together with the object after the call.
-/

namespace Torch
namespace database

/-! ## Open-mode flags -/

/-- The enumeration `_BinFileFlag`; the overloaded operators go through
`static_cast<int>`, so a flag value is an integer. -/
abbrev _BinFileFlag := Int

/-- Enumerator `_append = 1L << 0`, also `BinFile::append`. -/
def _append : _BinFileFlag := ((1 <<< 0 : Nat) : Int)

/-- Enumerator `_in = 1L << 3`, also `BinFile::in`. -/
def _in : _BinFileFlag := ((1 <<< 3 : Nat) : Int)

/-- Enumerator `_out = 1L << 4`, also `BinFile::out`. -/
def _out : _BinFileFlag := ((1 <<< 4 : Nat) : Int)

/-- The bit-mask type `BinFile::openmode`. -/
abbrev openmode := _BinFileFlag

/-- Overload `operator&` of `_BinFileFlag`. -/
def flagAnd (a b : _BinFileFlag) : _BinFileFlag := Int.land a b

/-- Overload `operator|` of `_BinFileFlag`. -/
def flagOr (a b : _BinFileFlag) : _BinFileFlag := Int.lor a b

/-- Overload `operator^` of `_BinFileFlag`. -/
def flagXor (a b : _BinFileFlag) : _BinFileFlag := Int.xor a b

/-- Overload `operator~` of `_BinFileFlag`. -/
def flagNot (a : _BinFileFlag) : _BinFileFlag := Int.not a

/-- The three flags of the enumeration. -/
def allFlags : List _BinFileFlag := [_append, _in, _out]

/-- A selection of flags combined with `operator|`, left to right; the empty
selection is the zero mask. -/
def combine (fs : List _BinFileFlag) : _BinFileFlag := fs.foldl flagOr 0

/-! ## The file object -/

/-- Exceptions of the binary file layer: `Uninitialized` and `IndexError` are
thrown in `BinFile.h`; the other three are the failures the specification
names for `write` and for header initialisation. -/
inductive BinFileException
  | Uninitialized
  | IndexError
  | TypeMismatch
  | ShapeMismatch
  | InvalidShape
  deriving DecidableEq, Repr

/-- Modelled from the spec: `Torch::core::array::ElementType`, whose
declaration is in another header of the library; the tags are the scalar types
the specification lists. -/
inductive ElementType
  | t_bool | t_int8 | t_int16 | t_int32 | t_int64
  | t_uint8 | t_uint16 | t_uint32 | t_uint64
  | t_float32 | t_float64 | t_complex64 | t_complex128
  deriving DecidableEq, Repr

/-- Modelled from the spec: `BinFileHeader`, declared in
database/BinFileHeader.h. The four members are the ones `BinFile.h` reads:
`m_elem_type`, `m_n_dimensions`, `m_shape` and `m_n_samples`. -/
structure BinFileHeader where
  m_elem_type : ElementType
  m_n_dimensions : Nat
  m_shape : List Nat
  m_n_samples : Nat
  deriving DecidableEq, Repr

/-- Modelled from the spec: `BinFileHeader::getNElements`, the product of the
extents of the shape. -/
def BinFileHeader.getNElements (h : BinFileHeader) : Nat :=
  (h.m_shape.take h.m_n_dimensions).prod

/-- Modelled from the spec: `BinFileHeader::getSize`, the extent along one
dimension; an index that is not below the number of dimensions is out of
range. -/
def BinFileHeader.getSize (h : BinFileHeader) (dim_index : Nat) :
    Except BinFileException Nat :=
  if dim_index ≥ h.m_n_dimensions then .error .IndexError
  else .ok (h.m_shape.getD dim_index 0)

/-- Modelled from the spec: `BinFileHeader::getShape(TinyVector<int,D>&)`, the
first `D` extents as `int`s. -/
def BinFileHeader.getShapeTiny (h : BinFileHeader) (D : Nat) : List Int :=
  (List.range D).map (fun i => (h.m_shape.getD i 0 : Int))

/-- What `m_stream` holds: the header block as last persisted (none before the
first one is written) and the data region as a sequence of raw record
buffers. -/
structure FileContents where
  header : Option BinFileHeader
  records : List (List Nat)
  deriving DecidableEq, Repr

/-- The representation of `class BinFile`. -/
structure BinFile where
  m_header_init : Bool
  m_current_array : Nat
  m_n_arrays_written : Nat
  m_stream : FileContents
  m_header : BinFileHeader
  m_openmode : openmode
  deriving DecidableEq, Repr

/-- The outcome of a member function: the value or the exception thrown, and
the object after the call. -/
abbrev Outcome (α : Type) := Except BinFileException α × BinFile

/-- Private check `BinFile::headerInitialized`. -/
def headerInitialized (s : BinFile) : Outcome Unit :=
  if !s.m_header_init then (.error .Uninitialized, s) else (.ok (), s)

/-- Sequencing of a check and the rest of a member function: an exception of
the check ends the call. -/
def andThen {α : Type} (c : Outcome Unit) (rest : BinFile → Outcome α) : Outcome α :=
  match c with
  | (.error e, s) => (.error e, s)
  | (.ok (), s) => rest s

/-- Accessor `BinFile::getElementType`. -/
def getElementType (s : BinFile) : Outcome ElementType :=
  andThen (headerInitialized s) fun s => (.ok s.m_header.m_elem_type, s)

/-- Accessor `BinFile::getNDimensions`. -/
def getNDimensions (s : BinFile) : Outcome Nat :=
  andThen (headerInitialized s) fun s => (.ok s.m_header.m_n_dimensions, s)

/-- Accessor `BinFile::getShape()`, the raw extents. -/
def getShape (s : BinFile) : Outcome (List Nat) :=
  andThen (headerInitialized s) fun s => (.ok s.m_header.m_shape, s)

/-- Accessor `BinFile::getShape(TinyVector<int,D>&)`. -/
def getShapeTiny (s : BinFile) (D : Nat) : Outcome (List Int) :=
  andThen (headerInitialized s) fun s => (.ok (s.m_header.getShapeTiny D), s)

/-- Accessor `BinFile::getNSamples`. -/
def getNSamples (s : BinFile) : Outcome Nat :=
  andThen (headerInitialized s) fun s => (.ok s.m_n_arrays_written, s)

/-- Accessor `BinFile::getNElements`. -/
def getNElements (s : BinFile) : Outcome Nat :=
  andThen (headerInitialized s) fun s => (.ok s.m_header.getNElements, s)

/-- Accessor `BinFile::getSize`. -/
def getSize (s : BinFile) (dim_index : Nat) : Outcome Nat :=
  andThen (headerInitialized s) fun s =>
    match s.m_header.getSize dim_index with
    | .error e => (.error e, s)
    | .ok n => (.ok n, s)

/-! ## Construction and writing, after the specification

The constructor, `initHeader` and `write` are only declared in `BinFile.h`;
their bodies are in `BinFile.cc`. The definitions below follow section 4 of
the specification. -/

/-- Modelled from the spec: the compile-time bound `N_MAX_DIMENSIONS_ARRAY`
on the dimensionality; the specification leaves its value to the
implementation. -/
def N_MAX_DIMENSIONS_ARRAY : Nat := 4

/-- Modelled from the spec: `detail::InlinedArrayImpl`, one array as handed
to `write`: its runtime element type, its shape and its raw element buffer. -/
structure InlinedArrayImpl where
  elementType : ElementType
  shape : List Nat
  buffer : List Nat
  deriving DecidableEq, Repr

/-- Modelled from the spec: the constructor `BinFile(filename, out)` in mode
`Write` (create or truncate): an open store with no header yet, nothing
written and an empty file. -/
def BinFile.create : BinFile :=
  { m_header_init := false
    m_current_array := 0
    m_n_arrays_written := 0
    m_stream := { header := none, records := [] }
    m_header := { m_elem_type := .t_bool, m_n_dimensions := 0, m_shape := [], m_n_samples := 0 }
    m_openmode := _out }

/-- The shape held by a header: its first `m_n_dimensions` extents. -/
def BinFileHeader.shape (h : BinFileHeader) : List Nat :=
  h.m_shape.take h.m_n_dimensions

/-- Exact shape conformance of an array with a header: same dimensionality and
same extents in order. -/
def sameShape (data : InlinedArrayImpl) (h : BinFileHeader) : Bool :=
  decide (data.shape.length = h.m_n_dimensions) && decide (data.shape = h.shape)

/-- Modelled from the spec: `BinFile::initHeader` (FileHeader `initialize`
guarded by the store): sets element type, dimensionality and shape, resets the
sample count to 0 and persists the header; a zero extent or a dimensionality
above the maximum is an invalid shape. -/
def initHeader (s : BinFile) (type : ElementType) (ndim : Nat) (shape : List Nat) :
    Outcome Unit :=
  if ndim > N_MAX_DIMENSIONS_ARRAY ∨ 0 ∈ shape then (.error .InvalidShape, s)
  else
    let h : BinFileHeader :=
      { m_elem_type := type, m_n_dimensions := ndim, m_shape := shape, m_n_samples := 0 }
    (.ok (), { s with m_header_init := true, m_header := h,
                      m_stream := { s.m_stream with header := some h } })

/-- Modelled from the spec: the successful end of `write`: the raw buffer goes
right after the last record, the sample count (also in the header block on
disk) and the count of arrays written each grow by one. -/
def appendRecord (s : BinFile) (data : InlinedArrayImpl) : Outcome Unit :=
  let h : BinFileHeader := { s.m_header with m_n_samples := s.m_header.m_n_samples + 1 }
  (.ok (), { s with m_header := h, m_n_arrays_written := s.m_n_arrays_written + 1,
                    m_stream := { header := some h,
                                  records := s.m_stream.records ++ [data.buffer] } })

/-- Modelled from the spec: `BinFile::write`. With no header yet the header is
derived from the array and persisted. Otherwise the array is validated against
the header and nothing is written on a violation: a shape that differs is a
`ShapeMismatch` (the specification promises it for every differing shape), an
element type that differs is a `TypeMismatch`. On success the record is
appended. The specification requires mode `Write` or `Append` of the caller
and names no failure for other modes, so there is no branch on the mode. -/
def write (s : BinFile) (data : InlinedArrayImpl) : Outcome Unit :=
  if !s.m_header_init then
    andThen (initHeader s data.elementType data.shape.length data.shape)
      fun s => appendRecord s data
  else if !sameShape data s.m_header then (.error .ShapeMismatch, s)
  else if data.elementType ≠ s.m_header.m_elem_type then (.error .TypeMismatch, s)
  else appendRecord s data

/-- The two sample counters of a store agree: the count of arrays written is
the sample count of the header, and it is zero while there is no header. -/
def countsAgree (s : BinFile) : Prop :=
  s.m_n_arrays_written = s.m_header.m_n_samples ∧
  (s.m_header_init = false → s.m_n_arrays_written = 0)

/-- Whether the counters agree can be computed. -/
instance decidableCountsAgree (s : BinFile) : Decidable (countsAgree s) := by
  unfold countsAgree
  infer_instance

/-- A store holding two 2-by-2 `int32` arrays. -/
def twoByTwoStore : BinFile :=
  { m_header_init := true
    m_current_array := 0
    m_n_arrays_written := 2
    m_stream := { header := some { m_elem_type := .t_int32, m_n_dimensions := 2,
                                   m_shape := [2, 2], m_n_samples := 2 },
                  records := [[1, 2, 3, 4], [5, 6, 7, 8]] }
    m_header := { m_elem_type := .t_int32, m_n_dimensions := 2, m_shape := [2, 2], m_n_samples := 2 }
    m_openmode := _out }

/-- A 1-dimensional `float64` array of three elements. -/
def threeVector : InlinedArrayImpl :=
  { elementType := .t_float64, shape := [3], buffer := [1, 2, 3] }

/-- The flag values a selection with the given members combines to. -/
def maskOf (a i o : Bool) : _BinFileFlag :=
  (if a then 1 else 0) + (if i then 8 else 0) + (if o then 16 else 0)

end database

namespace trainer

/-! ## The data shuffler -/

/-- A `blitz::Array<double,1>`: its extent is the length of the list, its
elements are rationals (exact arithmetic). -/
abbrev Array1 := List ℚ

/-- Element-wise `a + b` of two conforming arrays. -/
def vadd (a b : Array1) : Array1 := List.zipWith (fun x y => x + y) a b

/-- Element-wise `a - b` of two conforming arrays. -/
def vsub (a b : Array1) : Array1 := List.zipWith (fun x y => x - y) a b

/-- Element-wise `a * b` of two conforming arrays. -/
def vmul (a b : Array1) : Array1 := List.zipWith (fun x y => x * y) a b

/-- Element-wise `a / b` of two conforming arrays. -/
def vdiv (a b : Array1) : Array1 := List.zipWith (fun x y => x / y) a b

/-- Element-wise square `blitz::pow2`. -/
def pow2 (a : Array1) : Array1 := a.map fun x => x * x

/-- Assignment of a scalar to every element, as in `mean = 0.`. -/
def fill (a : Array1) (c : ℚ) : Array1 := a.map fun _ => c

/-- Division of every element by a scalar, as in `mean /= samples`. -/
def divScalar (a : Array1) (c : ℚ) : Array1 := a.map fun x => x / c

/-- Array `m_mean.resize(n)`: an array of extent `n`; its contents are
overwritten right after. -/
def resize (n : Nat) : Array1 := List.replicate n 0

/-- The part of `Torch::io::Arrayset` the shuffler uses (the class is declared
in another header of the library): the shape `getShape()` reports and the
arrays held, read as 1-dimensional arrays of doubles by `get<double,1>`. -/
structure Arrayset where
  shape : List Nat
  samples : List Array1
  deriving DecidableEq, Repr

/-- Method `Arrayset::size`. -/
def Arrayset.size (a : Arrayset) : Nat := a.samples.length

/-- Method `Arrayset::get<double,1>(i)`. -/
def Arrayset.get (a : Arrayset) (i : Nat) : Array1 := a.samples.getD i []

/-- Method `Arrayset::set(i, buffer)`. -/
def Arrayset.set (a : Arrayset) (i : Nat) (buffer : Array1) : Arrayset :=
  { a with samples := a.samples.set i buffer }

/-- Method `Arrayset::getShape`. -/
def Arrayset.getShape (a : Arrayset) : List Nat := a.shape

/-- Element `data[k]` of a `std::vector<Arrayset>`. -/
def elemAt (data : List Arrayset) (k : Nat) : Arrayset := data.getD k ⟨[], []⟩

/-- Exceptions the constructor can end with: the two of `trainer/Exception.h`
thrown in `DataShuffler.cc`, and the failure of an `array::assert...` helper. -/
inductive Exception
  | WrongNumberOfClasses (got : Nat)
  | WrongNumberOfFeatures (got expected classIndex : Nat)
  | UnexpectedShape
  deriving DecidableEq, Repr

/-- Helper `array::assertSameDimensionLength` of core/array_assert.h, as its
name and its call say: throws unless the two lengths are equal. -/
def assertSameDimensionLength (d1 d2 : Nat) : Except Exception Unit :=
  if d1 ≠ d2 then .error .UnexpectedShape else .ok ()

/-- Helper `array::assertSameShape` of core/array_assert.h on two
1-dimensional arrays, as its name and the loop's comment `checks shapes` say:
throws unless the extents are equal. -/
def assertSameShape (a b : Array1) : Except Exception Unit :=
  if a.length ≠ b.length then .error .UnexpectedShape else .ok ()

/-- A `boost::uniform_int<size_t>(min, max)`: the closed range it samples. -/
structure UniformInt where
  min : Nat
  max : Nat
  deriving DecidableEq, Repr

/-- The representation of `class DataShuffler`. -/
structure DataShuffler where
  m_data : List Arrayset
  m_target : List Array1
  m_range : List UniformInt
  m_do_stdnorm : Bool
  m_mean : Array1
  m_stddev : Array1
  deriving DecidableEq, Repr

/-- The loop `for (size_t k=0; k<data.size(); ++k)` of the constructor that
checks shapes and the minimum number of examples, from index `k` on with
`todo` iterations left. -/
def checkClasses (data : List Arrayset) (target : List Array1) :
    Nat → Nat → Except Exception Unit
  | 0, _ => .ok ()
  | todo + 1, k => do
    if (elemAt data k).size = 0 then throw (Exception.WrongNumberOfFeatures 0 1 k)
    assertSameShape ((elemAt data 0).get 0) ((elemAt data k).get 0)
    assertSameShape (target.getD 0 []) (target.getD k [])
    checkClasses data target todo (k + 1)

/-- Constructor `DataShuffler::DataShuffler(data, target)`. -/
def DataShuffler.DataShuffler (data : List Arrayset) (target : List Array1) :
    Except Exception DataShuffler := do
  if data.length = 0 then throw (Exception.WrongNumberOfClasses 0)
  if target.length = 0 then throw (Exception.WrongNumberOfClasses 0)
  assertSameDimensionLength data.length target.length
  checkClasses data target data.length 0
  let m_mean := fill (resize ((elemAt data 0).getShape.getD 0 0)) 0
  let m_stddev := fill (resize ((elemAt data 0).getShape.getD 0 0)) 1
  let m_target := (List.range target.length).map fun k => target.getD k []
  let m_range := (List.range data.length).map fun i =>
    UniformInt.mk 0 ((elemAt data i).size - 1)
  return { m_data := data, m_target := m_target, m_range := m_range,
           m_do_stdnorm := false, m_mean := m_mean, m_stddev := m_stddev }

/-- The rest of a counted loop: `todo` more runs of `body`, the next one at
index `i`. -/
def forEachIndexFrom {σ : Type} (body : Nat → σ → σ) : Nat → Nat → σ → σ
  | _, 0, s => s
  | i, todo + 1, s => forEachIndexFrom body (i + 1) todo (body i s)

/-- A counted loop `for (size_t i=0; i<n; ++i) body` over a state. -/
def forEachIndex {σ : Type} (n : Nat) (body : Nat → σ → σ) (s : σ) : σ :=
  forEachIndexFrom body 0 n s

/-- The running values of `evaluateStdNormParameters`: `mean`, `stddev` and the
counter `samples`. -/
structure StdNormState where
  mean : Array1
  stddev : Array1
  samples : ℚ
  deriving DecidableEq, Repr

/-- The two nested loops of `evaluateStdNormParameters`, after `mean = 0.`,
`stddev = 0.` and `samples = 0`: sums and square sums over every array of
every arrayset. -/
def accumulate (data : List Arrayset) (mean stddev : Array1) : StdNormState :=
  forEachIndex data.length
    (fun k st =>
      forEachIndex (elemAt data k).size
        (fun i st =>
          { mean := vadd st.mean ((elemAt data k).get i)
            stddev := vadd st.stddev (pow2 ((elemAt data k).get i))
            samples := st.samples + 1 })
        st)
    { mean := fill mean 0, stddev := fill stddev 0, samples := 0 }

/-- The array `stddev` of `evaluateStdNormParameters` right before
`stddev = blitz::sqrt(stddev)`: the value the square root is taken of. -/
def radicand (data : List Arrayset) (mean stddev : Array1) : Array1 :=
  let st := accumulate data mean stddev
  divScalar (vsub st.stddev (divScalar (pow2 st.mean) st.samples)) (st.samples - 1)

/-- Function `evaluateStdNormParameters`: the new `mean` and `stddev`. The
square root of doubles is a parameter. -/
def evaluateStdNormParameters (sqrt : ℚ → ℚ) (data : List Arrayset)
    (mean stddev : Array1) : Array1 × Array1 :=
  let st := accumulate data mean stddev
  let stddev := radicand data mean stddev
  let stddev := stddev.map sqrt
  let mean := divScalar st.mean st.samples
  (mean, stddev)

/-- Function `applyStdNormParameters`: every array becomes
`(orig - mean) / stddev`. -/
def applyStdNormParameters (data : List Arrayset) (mean stddev : Array1) :
    List Arrayset :=
  forEachIndex data.length
    (fun k data =>
      data.set k
        (forEachIndex (elemAt data k).size
          (fun i a => a.set i (vdiv (vsub (a.get i) mean) stddev))
          (elemAt data k)))
    data

/-- Function `invertApplyStdNormParameters`: every array becomes
`(orig * stddev) + mean`. -/
def invertApplyStdNormParameters (data : List Arrayset) (mean stddev : Array1) :
    List Arrayset :=
  forEachIndex data.length
    (fun k data =>
      data.set k
        (forEachIndex (elemAt data k).size
          (fun i a => a.set i (vadd (vmul (a.get i) stddev) mean))
          (elemAt data k)))
    data

/-- Every array of every arrayset, in loop order. -/
def allSamples (data : List Arrayset) : List Array1 :=
  (data.map fun a => a.samples).flatten

/-- The checks of one run of the constructor's loop pass for class `k`: it has
an example, its first example has the extent of the first example of class 0,
and its target has the extent of target 0. -/
def classPasses (data : List Arrayset) (target : List Array1) (k : Nat) : Prop :=
  (elemAt data k).size ≠ 0 ∧
  ((elemAt data 0).get 0).length = ((elemAt data k).get 0).length ∧
  (target.getD 0 []).length = (target.getD k []).length

/-- Whether a class passes the checks can be computed. -/
instance decidableClassPasses (data : List Arrayset) (target : List Array1) (k : Nat) :
    Decidable (classPasses data target k) := by
  unfold classPasses
  infer_instance

/-- One run of the inner loop body of `evaluateStdNormParameters`. -/
def accumulateStep (st : StdNormState) (x : Array1) : StdNormState :=
  { mean := vadd st.mean x, stddev := vadd st.stddev (pow2 x), samples := st.samples + 1 }

/-- An arrayset with `f` applied to every array it holds. -/
def mapSamples (f : Array1 → Array1) (a : Arrayset) : Arrayset :=
  { a with samples := a.samples.map f }

/-- Two arraysets of three arrays of extent 2 in total. -/
def exampleData : List Arrayset :=
  [⟨[2], [[1, 2], [3, 4]]⟩, ⟨[2], [[5, 7]]⟩]

/-- One target per class of `exampleData`. -/
def exampleTarget : List Array1 := [[1, 0], [0, 1]]

/-- Two classes, neither with an example. -/
def twoEmptyClasses : List Arrayset := [⟨[2], []⟩, ⟨[2], []⟩]

/-- Three classes: the second has arrays of another extent than the first,
the third has no example. -/
def mismatchedThenEmpty : List Arrayset :=
  [⟨[2], [[1, 2]]⟩, ⟨[3], [[1, 2, 3]]⟩, ⟨[2], []⟩]

/-- One target per class of `mismatchedThenEmpty`. -/
def threeTargets : List Array1 := [[1, 0], [0, 1], [1, 1]]

end trainer
end Torch

namespace Torch
namespace database

/-! ## Theorems on the open-mode flags -/

/-- One more flag or-ed into a mask of known members. -/
theorem flagOr_maskOf (a i o : Bool) (x : _BinFileFlag) (hx : x ∈ allFlags) :
    flagOr (maskOf a i o) x
      = maskOf (a || decide (x = _append)) (i || decide (x = _in)) (o || decide (x = _out)) := by
  simp only [allFlags, List.mem_cons, List.mem_singleton, List.not_mem_nil, or_false] at hx
  rcases hx with rfl | rfl | rfl <;> cases a <;> cases i <;> cases o <;> decide

/-- Or-ing a list of flags into a mask adds exactly the flags of the list. -/
theorem foldl_flagOr_maskOf (fs : List _BinFileFlag) :
    ∀ (a i o : Bool), (∀ x ∈ fs, x ∈ allFlags) →
      fs.foldl flagOr (maskOf a i o)
        = maskOf (a || decide (_append ∈ fs)) (i || decide (_in ∈ fs))
            (o || decide (_out ∈ fs)) := by
  induction fs with
  | nil => intro a i o _; simp
  | cons x xs ih =>
    intro a i o h
    have hx : x ∈ allFlags := h x (List.mem_cons_self _ _)
    have hxs : ∀ y ∈ xs, y ∈ allFlags := fun y hy => h y (List.mem_cons_of_mem _ hy)
    rw [List.foldl_cons, flagOr_maskOf a i o x hx, ih _ _ _ hxs]
    have e : ∀ (b : Bool) (y : _BinFileFlag),
        ((b || decide (x = y)) || decide (y ∈ xs)) = (b || decide (y ∈ x :: xs)) := by
      intro b y
      by_cases h1 : x = y <;> by_cases h2 : y ∈ xs <;> cases b <;>
        simp [h1, h2, eq_comm]
    rw [e, e, e]

/-- A combination of flags is the mask of its members. -/
theorem combine_eq_maskOf (fs : List _BinFileFlag) (h : ∀ x ∈ fs, x ∈ allFlags) :
    combine fs = maskOf (decide (_append ∈ fs)) (decide (_in ∈ fs)) (decide (_out ∈ fs)) := by
  have := foldl_flagOr_maskOf fs false false false h
  simpa [combine, maskOf] using this

/-- C4: the flags `_append`, `_in` and `_out` are non-zero and pairwise
disjoint, and for every selection of them combined with `operator|` and every
flag `f`, `operator&` of the combination with `f` is `f` when `f` is selected
and the zero mask when it is not. -/
theorem flags_disjoint_and_mask :
    (_append ≠ 0 ∧ _in ≠ 0 ∧ _out ≠ 0) ∧
    (flagAnd _append _in = 0 ∧ flagAnd _append _out = 0 ∧ flagAnd _in _out = 0) ∧
    ∀ fs : List _BinFileFlag, (∀ x ∈ fs, x ∈ allFlags) → ∀ f ∈ allFlags,
      flagAnd (combine fs) f = if f ∈ fs then f else 0 := by
  refine ⟨by decide, by decide, ?_⟩
  intro fs hfs f hf
  rw [combine_eq_maskOf fs hfs]
  simp only [allFlags, List.mem_cons, List.mem_singleton, List.not_mem_nil, or_false] at hf
  have hne : _append ≠ _in ∧ _append ≠ _out ∧ _in ≠ _out := by decide
  by_cases ha : _append ∈ fs <;> by_cases hi : _in ∈ fs <;> by_cases ho : _out ∈ fs <;>
    rcases hf with rfl | rfl | rfl <;> simp only [ha, hi, ho, if_true, if_false] <;> decide

/-- Witness of C4: `append | out` masked by each of the three flags. -/
theorem flags_disjoint_and_mask_witness :
    flagAnd (combine [_append, _out]) _append = _append ∧
    flagAnd (combine [_append, _out]) _in = 0 ∧
    flagAnd (combine [_append, _out]) _out = _out :=
  have h : ∀ x ∈ [_append, _out], x ∈ allFlags := by decide
  ⟨by simpa using flags_disjoint_and_mask.2.2 [_append, _out] h _append (by decide),
   by simpa using flags_disjoint_and_mask.2.2 [_append, _out] h _in (by decide),
   by simpa using flags_disjoint_and_mask.2.2 [_append, _out] h _out (by decide)⟩

/-! ## Theorems on the file object -/

/-- C1: in every state each metadata accessor fails with `Uninitialized`
exactly when the flag `m_header_init` is false, and leaves the state as it
was; on a freshly created store with no write every accessor fails with
`Uninitialized`. -/
theorem accessors_uninitialized_iff (s : BinFile) (D dim_index : Nat) :
    (((getElementType s).1 = .error .Uninitialized ↔ s.m_header_init = false) ∧
      (getElementType s).2 = s) ∧
    (((getNDimensions s).1 = .error .Uninitialized ↔ s.m_header_init = false) ∧
      (getNDimensions s).2 = s) ∧
    (((getShape s).1 = .error .Uninitialized ↔ s.m_header_init = false) ∧
      (getShape s).2 = s) ∧
    (((getShapeTiny s D).1 = .error .Uninitialized ↔ s.m_header_init = false) ∧
      (getShapeTiny s D).2 = s) ∧
    (((getNSamples s).1 = .error .Uninitialized ↔ s.m_header_init = false) ∧
      (getNSamples s).2 = s) ∧
    (((getNElements s).1 = .error .Uninitialized ↔ s.m_header_init = false) ∧
      (getNElements s).2 = s) ∧
    (((getSize s dim_index).1 = .error .Uninitialized ↔ s.m_header_init = false) ∧
      (getSize s dim_index).2 = s) ∧
    ((getElementType BinFile.create).1 = .error .Uninitialized ∧
      (getNDimensions BinFile.create).1 = .error .Uninitialized ∧
      (getShape BinFile.create).1 = .error .Uninitialized ∧
      (getShapeTiny BinFile.create D).1 = .error .Uninitialized ∧
      (getNSamples BinFile.create).1 = .error .Uninitialized ∧
      (getNElements BinFile.create).1 = .error .Uninitialized ∧
      (getSize BinFile.create dim_index).1 = .error .Uninitialized) := by
  refine ⟨?_, ?_, ?_, ?_, ?_, ?_, ?_, ?_⟩
  · cases h : s.m_header_init <;> simp [getElementType, headerInitialized, andThen, h]
  · cases h : s.m_header_init <;> simp [getNDimensions, headerInitialized, andThen, h]
  · cases h : s.m_header_init <;> simp [getShape, headerInitialized, andThen, h]
  · cases h : s.m_header_init <;> simp [getShapeTiny, headerInitialized, andThen, h]
  · cases h : s.m_header_init <;> simp [getNSamples, headerInitialized, andThen, h]
  · cases h : s.m_header_init <;> simp [getNElements, headerInitialized, andThen, h]
  · cases h : s.m_header_init
    · simp [getSize, headerInitialized, andThen, h]
    · simp only [getSize, headerInitialized, andThen, h, BinFileHeader.getSize]
      by_cases hd : dim_index ≥ s.m_header.m_n_dimensions <;> simp [hd]
  · simp [getElementType, getNDimensions, getShape, getShapeTiny, getNSamples, getNElements,
      getSize, headerInitialized, andThen, BinFile.create]

/-- C2: when the header is initialised, `write` of an array whose shape
differs from the header's (in dimensionality or in any extent) fails with
`ShapeMismatch` and the store after the call is the store before it. -/
theorem write_shape_mismatch (s : BinFile) (data : InlinedArrayImpl)
    (hinit : s.m_header_init = true)
    (hshape : data.shape.length ≠ s.m_header.m_n_dimensions ∨ data.shape ≠ s.m_header.shape) :
    write s data = (.error .ShapeMismatch, s) := by
  have hs : sameShape data s.m_header = false := by
    rcases hshape with h | h <;> simp [sameShape, h]
  simp [write, hinit, hs]

/-- Witness of C2: a 3-vector written to a store of 2-by-2 arrays. -/
theorem write_shape_mismatch_witness :
    write twoByTwoStore threeVector = (.error .ShapeMismatch, twoByTwoStore) :=
  write_shape_mismatch twoByTwoStore threeVector (by decide) (by decide)

end database
end Torch

namespace Torch
namespace trainer

/-! ## Counted loops -/

/-- A counted loop that only reads element `i` of a list is a left fold over the list. -/
theorem forEachIndexFrom_read {σ α : Type} (g : α → σ → σ) (get : Nat → α) (d : α) :
    ∀ (l : List α) (i : Nat) (s : σ), (∀ j, j < l.length → get (i + j) = l.getD j d) →
      forEachIndexFrom (fun i s => g (get i) s) i l.length s = l.foldl (fun s x => g x s) s := by
  intro l
  induction l with
  | nil => intro i s _; rfl
  | cons x xs ih =>
    intro i s h
    have h0 : get i = x := by simpa using h 0 (by simp)
    have hs : ∀ j, j < xs.length → get (i + 1 + j) = xs.getD j d := by
      intro j hj
      have := h (j + 1) (by simpa using hj)
      simpa [Nat.add_assoc, Nat.add_comm 1 j] using this
    simp only [List.length_cons, forEachIndexFrom, List.foldl_cons, h0]
    exact ih (i + 1) (g x s) hs

/-- A counted loop that replaces element `i` by `F` of it maps `F` over the rest of the list. -/
theorem forEachIndexFrom_set {α : Type} (F : α → α) (d : α) :
    ∀ (l pre : List α),
      forEachIndexFrom (fun i (m : List α) => m.set i (F (m.getD i d))) pre.length l.length
        (pre ++ l) = pre ++ l.map F := by
  intro l
  induction l with
  | nil => intro pre; simp [forEachIndexFrom]
  | cons x xs ih =>
    intro pre
    have g : (pre ++ x :: xs).getD pre.length d = x := by
      induction pre with
      | nil => rfl
      | cons p ps ihp => simpa using ihp
    have e : (pre ++ x :: xs).set pre.length (F ((pre ++ x :: xs).getD pre.length d))
        = (pre ++ [F x]) ++ xs := by
      rw [g]; simp
    simp only [List.length_cons, forEachIndexFrom, e]
    have := ih (pre ++ [F x])
    simpa using this

/-- The loop `for i: m[i] = F(m[i])` over a whole list is `map F`. -/
theorem forEachIndex_set {α : Type} (F : α → α) (d : α) (l : List α) :
    forEachIndex l.length (fun i (m : List α) => m.set i (F (m.getD i d))) l = l.map F := by
  simpa [forEachIndex] using forEachIndexFrom_set F d l []

/-! ## The constructor -/

/-- One run of the checking loop, with the exceptions spelled out. -/
theorem checkClasses_succ (data : List Arrayset) (target : List Array1) (todo k : Nat) :
    checkClasses data target (todo + 1) k
      = if (elemAt data k).size = 0 then .error (Exception.WrongNumberOfFeatures 0 1 k)
        else if ((elemAt data 0).get 0).length ≠ ((elemAt data k).get 0).length then
          .error .UnexpectedShape
        else if (target.getD 0 []).length ≠ (target.getD k []).length then
          .error .UnexpectedShape
        else checkClasses data target todo (k + 1) := by
  simp only [checkClasses, assertSameShape, bind, Except.bind, throw, throwThe,
    MonadExceptOf.throw, pure, Except.pure]
  split_ifs <;> rfl

/-- The checking loop ends normally exactly when every class in its range passes. -/
theorem checkClasses_ok_iff (data : List Arrayset) (target : List Array1) :
    ∀ (todo k : Nat),
      checkClasses data target todo k = .ok () ↔
        ∀ j, k ≤ j → j < k + todo → classPasses data target j := by
  intro todo
  induction todo with
  | zero =>
    intro k
    simp only [checkClasses, true_iff]
    intro j h1 h2; omega
  | succ todo ih =>
    intro k
    rw [checkClasses_succ]
    by_cases h1 : (elemAt data k).size = 0
    · rw [if_pos h1]
      simp only [false_iff, reduceCtorEq]
      intro h
      exact (h k (le_refl _) (by omega)).1 h1
    · by_cases h2 : ((elemAt data 0).get 0).length ≠ ((elemAt data k).get 0).length
      · rw [if_neg h1, if_pos h2]
        simp only [false_iff, reduceCtorEq]
        intro h
        exact h2 (h k (le_refl _) (by omega)).2.1
      · by_cases h3 : (target.getD 0 []).length ≠ (target.getD k []).length
        · rw [if_neg h1, if_neg h2, if_pos h3]
          simp only [false_iff, reduceCtorEq]
          intro h
          exact h3 (h k (le_refl _) (by omega)).2.2
        · rw [if_neg h1, if_neg h2, if_neg h3, ih]
          simp only [not_not] at h2 h3
          constructor
          · intro h j hj1 hj2
            by_cases e : j = k
            · subst e; exact ⟨h1, h2, h3⟩
            · exact h j (by omega) (by omega)
          · intro h j hj1 hj2
            exact h j (by omega) (by omega)

/-- The checking loop stops at the first class without an example when the classes before it pass. -/
theorem checkClasses_first_empty (data : List Arrayset) (target : List Array1) (k' : Nat) :
    ∀ (todo k : Nat), k ≤ k' → k' < k + todo →
      (∀ j, k ≤ j → j < k' → classPasses data target j) → (elemAt data k').size = 0 →
      checkClasses data target todo k = .error (Exception.WrongNumberOfFeatures 0 1 k') := by
  intro todo
  induction todo with
  | zero => intro k h1 h2; omega
  | succ todo ih =>
    intro k h1 h2 hp he
    rw [checkClasses_succ]
    by_cases e : k = k'
    · subst e; simp [he]
    · obtain ⟨p1, p2, p3⟩ := hp k (le_refl _) (by omega)
      rw [if_neg p1, if_neg (not_not.mpr p2), if_neg (not_not.mpr p3)]
      exact ih (k + 1) (by omega) (by omega) (fun j a b => hp j (by omega) b) he

/-- Copying a list index by index gives the list. -/
theorem range_map_getD {α : Type} (l : List α) (d : α) :
    (List.range l.length).map (fun k => l.getD k d) = l := by
  apply List.ext_getElem
  · simp
  · intro i h1 h2
    simp [List.getD_eq_getElem?_getD, List.getElem?_eq_getElem h2]

/-- The constructor as a cascade of its guards. -/
theorem constructor_eq (data : List Arrayset) (target : List Array1) :
    DataShuffler.DataShuffler data target
      = if data.length = 0 then .error (Exception.WrongNumberOfClasses 0)
        else if target.length = 0 then .error (Exception.WrongNumberOfClasses 0)
        else if data.length ≠ target.length then .error .UnexpectedShape
        else match checkClasses data target data.length 0 with
          | .error e => .error e
          | .ok () => .ok
              { m_data := data
                m_target := target
                m_range := (List.range data.length).map fun i =>
                  UniformInt.mk 0 ((elemAt data i).size - 1)
                m_do_stdnorm := false
                m_mean := List.replicate ((elemAt data 0).getShape.getD 0 0) 0
                m_stddev := List.replicate ((elemAt data 0).getShape.getD 0 0) 1 } := by
  by_cases h1 : data.length = 0
  · simp [DataShuffler.DataShuffler, h1, throw, throwThe, MonadExceptOf.throw, bind, Except.bind]
  · by_cases h2 : target.length = 0
    · simp [DataShuffler.DataShuffler, h1, h2, throw, throwThe, MonadExceptOf.throw, bind,
        Except.bind, pure, Except.pure]
    · by_cases h3 : data.length ≠ target.length
      · simp [DataShuffler.DataShuffler, h1, h2, h3, assertSameDimensionLength, bind, Except.bind,
          pure, Except.pure]
      · simp only [not_not] at h3
        simp only [DataShuffler.DataShuffler, h1, h2, assertSameDimensionLength, bind,
          Except.bind, pure, Except.pure, if_false, ne_eq, h3, not_true_eq_false]
        cases checkClasses data target target.length 0 with
        | error e => rfl
        | ok u =>
          have := range_map_getD target []
          simp only [fill, resize, List.map_replicate, this]

/-- C5, as stated, fails: class 1 of `twoEmptyClasses` has no example, yet
the constructor ends with `WrongNumberOfFeatures(0, 1, 0)`; class 2 of
`mismatchedThenEmpty` has no example, yet the constructor ends in the shape
assertion on class 1. -/
theorem constructor_empty_class_counterexample :
    ((elemAt twoEmptyClasses 1).size = 0 ∧
      DataShuffler.DataShuffler twoEmptyClasses exampleTarget
        = .error (Exception.WrongNumberOfFeatures 0 1 0) ∧
      DataShuffler.DataShuffler twoEmptyClasses exampleTarget
        ≠ .error (Exception.WrongNumberOfFeatures 0 1 1)) ∧
    ((elemAt mismatchedThenEmpty 2).size = 0 ∧
      DataShuffler.DataShuffler mismatchedThenEmpty threeTargets = .error .UnexpectedShape ∧
      DataShuffler.DataShuffler mismatchedThenEmpty threeTargets
        ≠ .error (Exception.WrongNumberOfFeatures 0 1 2)) := by
  have e1 : DataShuffler.DataShuffler twoEmptyClasses exampleTarget
      = .error (Exception.WrongNumberOfFeatures 0 1 0) := rfl
  have e2 : DataShuffler.DataShuffler mismatchedThenEmpty threeTargets
      = .error .UnexpectedShape := rfl
  refine ⟨⟨rfl, e1, ?_⟩, ⟨rfl, e2, ?_⟩⟩
  · rw [e1]; simp
  · rw [e2]; simp

/-- C5, amended: construction fails with `WrongNumberOfClasses(0)` when the
data list or the target list is empty; it fails when the two lists differ in
length; it fails with `WrongNumberOfFeatures(0, 1, k)` when class `k` is the
first class without an example and every class before it passes the shape
checks of the loop; it succeeds when every class passes them. Whenever it
succeeds the shuffler holds the data, one target and one range
`[0, size_k - 1]` per class, every class has at least one example, the
normalisation flag is off, the mean is all zeros and the stddev all ones. -/
theorem constructor_contract (data : List Arrayset) (target : List Array1) :
    ((data = [] ∨ target = []) →
      DataShuffler.DataShuffler data target = .error (Exception.WrongNumberOfClasses 0)) ∧
    (data.length ≠ target.length →
      ∃ e, DataShuffler.DataShuffler data target = .error e) ∧
    (∀ k, data ≠ [] → target ≠ [] → data.length = target.length → k < data.length →
      (∀ j, j < k → classPasses data target j) → (elemAt data k).size = 0 →
      DataShuffler.DataShuffler data target
        = .error (Exception.WrongNumberOfFeatures 0 1 k)) ∧
    (data ≠ [] → target ≠ [] → data.length = target.length →
      (∀ j, j < data.length → classPasses data target j) →
      ∃ sh, DataShuffler.DataShuffler data target = .ok sh) ∧
    (∀ sh, DataShuffler.DataShuffler data target = .ok sh →
      sh.m_data = data ∧ sh.m_target = target ∧
      sh.m_target.length = data.length ∧ sh.m_range.length = data.length ∧
      (∀ k, k < data.length →
        1 ≤ (elemAt data k).size ∧
        sh.m_range.getD k ⟨0, 0⟩ = ⟨0, (elemAt data k).size - 1⟩) ∧
      sh.m_do_stdnorm = false ∧
      sh.m_mean = List.replicate ((elemAt data 0).getShape.getD 0 0) 0 ∧
      sh.m_stddev = List.replicate ((elemAt data 0).getShape.getD 0 0) 1) := by
  have hlen : ∀ {α : Type} (l : List α), l ≠ [] → ¬ l.length = 0 := by
    intro α l h; simpa using h
  refine ⟨?_, ?_, ?_, ?_, ?_⟩
  · rintro (h | h)
    · rw [constructor_eq, if_pos (by simp [h])]
    · rw [constructor_eq]
      by_cases hd : data.length = 0
      · rw [if_pos hd]
      · rw [if_neg hd, if_pos (by simp [h])]
  · intro h
    rw [constructor_eq]
    by_cases hd : data.length = 0
    · exact ⟨_, by rw [if_pos hd]⟩
    · by_cases ht : target.length = 0
      · exact ⟨_, by rw [if_neg hd, if_pos ht]⟩
      · exact ⟨_, by rw [if_neg hd, if_neg ht, if_pos h]⟩
  · intro k hd ht hl hk hp he
    rw [constructor_eq, if_neg (hlen data hd), if_neg (hlen target ht),
      if_neg (not_not.mpr hl),
      checkClasses_first_empty data target k data.length 0 (Nat.zero_le _) (by omega)
        (fun j _ hj => hp j hj) he]
  · intro hd ht hl hp
    rw [constructor_eq, if_neg (hlen data hd), if_neg (hlen target ht),
      if_neg (not_not.mpr hl),
      (checkClasses_ok_iff data target data.length 0).mpr (fun j _ hj => hp j (by omega))]
    exact ⟨_, rfl⟩
  · intro sh hsh
    rw [constructor_eq] at hsh
    by_cases hd : data.length = 0
    · rw [if_pos hd] at hsh; cases hsh
    · by_cases ht : target.length = 0
      · rw [if_neg hd, if_pos ht] at hsh; cases hsh
      · by_cases hl : data.length ≠ target.length
        · rw [if_neg hd, if_neg ht, if_pos hl] at hsh; cases hsh
        · rw [if_neg hd, if_neg ht, if_neg hl] at hsh
          simp only [not_not] at hl
          cases hc : checkClasses data target data.length 0 with
          | error e => rw [hc] at hsh; cases hsh
          | ok u =>
            rw [hc] at hsh
            have hpass := (checkClasses_ok_iff data target data.length 0).mp hc
            injection hsh with hsh
            subst hsh
            refine ⟨rfl, rfl, hl.symm, by simp, ?_, rfl, rfl, rfl⟩
            intro k hk
            have h1 := (hpass k (Nat.zero_le _) (by omega)).1
            refine ⟨by omega, ?_⟩
            simp [List.getD_eq_getElem?_getD, List.getElem?_map, List.getElem?_range hk]

/-- Witness of C5 amended: in `[class with one example, class with none]` the
constructor names class 1, and `exampleData` is accepted. -/
theorem constructor_contract_witness :
    DataShuffler.DataShuffler [⟨[2], [[1, 2]]⟩, ⟨[2], []⟩] exampleTarget
      = .error (Exception.WrongNumberOfFeatures 0 1 1) ∧
    ∃ sh, DataShuffler.DataShuffler exampleData exampleTarget = .ok sh :=
  ⟨(constructor_contract [⟨[2], [[1, 2]]⟩, ⟨[2], []⟩] exampleTarget).2.2.1 1
      (by decide) (by decide) (by decide) (by decide)
      (by intro j hj
          have : j = 0 := by omega
          subst this
          exact ⟨by decide, by decide, by decide⟩)
      (by decide),
   (constructor_contract exampleData exampleTarget).2.2.2.1 (by decide) (by decide) (by decide)
      (by intro j hj
          have : j = 0 ∨ j = 1 := by
            have : j < 2 := hj
            omega
          rcases this with rfl | rfl <;> exact ⟨by decide, by decide, by decide⟩)⟩

/-! ## Standard normalisation parameters -/

/-- Component `j` of an element-wise binary operation. -/
theorem getD_zipWith (f : ℚ → ℚ → ℚ) :
    ∀ (a b : Array1) (j : Nat), j < a.length → j < b.length →
      (List.zipWith f a b).getD j 0 = f (a.getD j 0) (b.getD j 0) := by
  intro a
  induction a with
  | nil => intro b j h; simp at h
  | cons x xs ih =>
    intro b j ha hb
    cases b with
    | nil => simp at hb
    | cons y ys =>
      cases j with
      | zero => simp
      | succ j =>
        simp only [List.length_cons, Nat.add_lt_add_iff_right] at ha hb
        simpa using ih ys j ha hb

/-- Component `j` of an element-wise unary operation. -/
theorem getD_map (f : ℚ → ℚ) :
    ∀ (a : Array1) (j : Nat), j < a.length → (a.map f).getD j 0 = f (a.getD j 0) := by
  intro a
  induction a with
  | nil => intro j h; simp at h
  | cons x xs ih =>
    intro j h
    cases j with
    | zero => simp
    | succ j =>
      simp only [List.length_cons, Nat.add_lt_add_iff_right] at h
      simpa using ih j h

/-- The two nested loops are one left fold over all arrays. -/
theorem accumulate_eq_foldl (data : List Arrayset) (mean stddev : Array1) :
    accumulate data mean stddev
      = (allSamples data).foldl accumulateStep
          { mean := fill mean 0, stddev := fill stddev 0, samples := 0 } := by
  have inner : ∀ (a : Arrayset) (st : StdNormState),
      forEachIndex a.size
        (fun i st =>
          ({ mean := vadd st.mean (a.get i)
             stddev := vadd st.stddev (pow2 (a.get i))
             samples := st.samples + 1 } : StdNormState)) st
        = a.samples.foldl accumulateStep st := by
    intro a st
    exact forEachIndexFrom_read (fun x st => accumulateStep st x) a.get [] a.samples 0 st
      (fun j _ => by simp [Arrayset.get])
  have outer : ∀ (st : StdNormState),
      forEachIndex data.length
        (fun k st => (elemAt data k).samples.foldl accumulateStep st) st
        = data.foldl (fun st a => a.samples.foldl accumulateStep st) st := by
    intro st
    exact forEachIndexFrom_read (fun a st => a.samples.foldl accumulateStep st)
      (elemAt data) ⟨[], []⟩ data 0 st (fun j _ => by simp [elemAt])
  have flat : ∀ (l : List Arrayset) (st : StdNormState),
      l.foldl (fun st a => a.samples.foldl accumulateStep st) st
        = (allSamples l).foldl accumulateStep st := by
    intro l
    induction l with
    | nil => intro st; rfl
    | cons a as ih => intro st; simp [allSamples, List.foldl_append] at ih ⊢; exact ih _
  unfold accumulate
  simp only [inner]
  rw [outer, flat]

/-- The fold keeps the extents, counts the arrays and adds up components and their squares. -/
theorem foldl_accumulateStep (d : Nat) :
    ∀ (S : List Array1) (st : StdNormState), (∀ x ∈ S, x.length = d) →
      st.mean.length = d → st.stddev.length = d →
      (S.foldl accumulateStep st).mean.length = d ∧
      (S.foldl accumulateStep st).stddev.length = d ∧
      (S.foldl accumulateStep st).samples = st.samples + S.length ∧
      ∀ j, j < d →
        (S.foldl accumulateStep st).mean.getD j 0
          = st.mean.getD j 0 + (S.map fun x => x.getD j 0).sum ∧
        (S.foldl accumulateStep st).stddev.getD j 0
          = st.stddev.getD j 0 + (S.map fun x => x.getD j 0 * x.getD j 0).sum := by
  intro S
  induction S with
  | nil => intro st _ hm hs; simp [hm, hs]
  | cons x xs ih =>
    intro st hS hm hs
    have hx : x.length = d := hS x (List.mem_cons_self _ _)
    have hxs : ∀ y ∈ xs, y.length = d := fun y hy => hS y (List.mem_cons_of_mem _ hy)
    have hm1 : (accumulateStep st x).mean.length = d := by
      simp [accumulateStep, vadd, hm, hx]
    have hs1 : (accumulateStep st x).stddev.length = d := by
      simp [accumulateStep, vadd, pow2, hs, hx]
    obtain ⟨r1, r2, r3, r4⟩ := ih (accumulateStep st x) hxs hm1 hs1
    refine ⟨r1, r2, ?_, ?_⟩
    · rw [List.foldl_cons, r3]; simp [accumulateStep]; ring
    · intro j hj
      obtain ⟨q1, q2⟩ := r4 j hj
      have e1 : (accumulateStep st x).mean.getD j 0 = st.mean.getD j 0 + x.getD j 0 :=
        getD_zipWith _ _ _ j (by omega) (by omega)
      have e2 : (accumulateStep st x).stddev.getD j 0
          = st.stddev.getD j 0 + x.getD j 0 * x.getD j 0 := by
        have := getD_zipWith (fun a b => a + b) st.stddev (pow2 x) j (by omega)
          (by simp [pow2]; omega)
        rw [show (pow2 x).getD j 0 = x.getD j 0 * x.getD j 0 from
          getD_map _ x j (by omega)] at this
        exact this
      rw [List.foldl_cons, q1, q2, e1, e2]
      simp only [List.map_cons, List.sum_cons]
      constructor <;> ring

/-- The sum of squared deviations from `c`, expanded. -/
theorem sum_sq_sub (g : Array1 → ℚ) (c : ℚ) (S : List Array1) :
    (S.map fun x => (g x - c) ^ 2).sum
      = (S.map fun x => g x * g x).sum - 2 * c * (S.map g).sum + S.length * c ^ 2 := by
  induction S with
  | nil => simp
  | cons x xs ih =>
    simp only [List.map_cons, List.sum_cons, List.length_cons, ih]
    push_cast
    ring

/-- After the loops: the count of arrays, and per component the sum and the square sum. -/
theorem accumulate_spec (data : List Arrayset) (mean stddev : Array1) (d : Nat)
    (hlen : ∀ x ∈ allSamples data, x.length = d)
    (hm : mean.length = d) (hs : stddev.length = d) :
    (accumulate data mean stddev).mean.length = d ∧
    (accumulate data mean stddev).stddev.length = d ∧
    (accumulate data mean stddev).samples = ((allSamples data).length : ℚ) ∧
    ∀ j, j < d →
      (accumulate data mean stddev).mean.getD j 0
        = ((allSamples data).map fun x => x.getD j 0).sum ∧
      (accumulate data mean stddev).stddev.getD j 0
        = ((allSamples data).map fun x => x.getD j 0 * x.getD j 0).sum := by
  rw [accumulate_eq_foldl]
  obtain ⟨r1, r2, r3, r4⟩ := foldl_accumulateStep d (allSamples data)
    { mean := fill mean 0, stddev := fill stddev 0, samples := 0 } hlen
    (by simp [fill, hm]) (by simp [fill, hs])
  refine ⟨r1, r2, by simpa using r3, ?_⟩
  intro j hj
  obtain ⟨q1, q2⟩ := r4 j hj
  have z1 : (fill mean 0).getD j 0 = 0 := getD_map _ mean j (by omega)
  have z2 : (fill stddev 0).getD j 0 = 0 := getD_map _ stddev j (by omega)
  simp only [z1, z2, zero_add] at q1 q2
  exact ⟨q1, q2⟩

/-- C6: for arraysets holding `n ≥ 2` arrays in total, all of extent `d` (as
are `mean` and `stddev`), `evaluateStdNormParameters` sets `mean` to the
component-wise arithmetic mean of all arrays and `stddev` to the square root
of the unbiased sample variance: the value under the square root is the sum of
`(x - mean)^2` over all arrays divided by `n - 1`, component by component. -/
theorem evaluateStdNormParameters_unbiased (sqrt : ℚ → ℚ) (data : List Arrayset)
    (mean stddev : Array1) (d : Nat)
    (hlen : ∀ x ∈ allSamples data, x.length = d)
    (hm : mean.length = d) (hs : stddev.length = d)
    (hn : 2 ≤ (allSamples data).length) :
    (evaluateStdNormParameters sqrt data mean stddev).1.length = d ∧
    (evaluateStdNormParameters sqrt data mean stddev).2.length = d ∧
    (evaluateStdNormParameters sqrt data mean stddev).2
      = (radicand data mean stddev).map sqrt ∧
    ∀ j, j < d →
      (evaluateStdNormParameters sqrt data mean stddev).1.getD j 0
        = ((allSamples data).map fun x => x.getD j 0).sum / ((allSamples data).length : ℚ) ∧
      (radicand data mean stddev).getD j 0
        = ((allSamples data).map fun x =>
            (x.getD j 0 - (evaluateStdNormParameters sqrt data mean stddev).1.getD j 0) ^ 2).sum
          / (((allSamples data).length : ℚ) - 1) ∧
      (evaluateStdNormParameters sqrt data mean stddev).2.getD j 0
        = sqrt (((allSamples data).map fun x =>
            (x.getD j 0 - (evaluateStdNormParameters sqrt data mean stddev).1.getD j 0) ^ 2).sum
          / (((allSamples data).length : ℚ) - 1)) := by
  obtain ⟨a1, a2, a3, a4⟩ := accumulate_spec data mean stddev d hlen hm hs
  have hrl : (radicand data mean stddev).length = d := by
    simp [radicand, divScalar, vsub, pow2, a1, a2]
  refine ⟨by simp [evaluateStdNormParameters, divScalar, a1],
    by simp [evaluateStdNormParameters, hrl], rfl, ?_⟩
  intro j hj
  obtain ⟨b1, b2⟩ := a4 j hj
  have hn0 : ((allSamples data).length : ℚ) ≠ 0 := by
    have : 0 < (allSamples data).length := by omega
    exact_mod_cast this.ne'
  have em : (evaluateStdNormParameters sqrt data mean stddev).1.getD j 0
      = ((allSamples data).map fun x => x.getD j 0).sum / ((allSamples data).length : ℚ) := by
    show (divScalar (accumulate data mean stddev).mean (accumulate data mean stddev).samples).getD j 0 = _
    rw [divScalar, getD_map _ _ j (by omega), b1, a3]
  have er : (radicand data mean stddev).getD j 0
      = ((allSamples data).map fun x =>
            (x.getD j 0 - (evaluateStdNormParameters sqrt data mean stddev).1.getD j 0) ^ 2).sum
          / (((allSamples data).length : ℚ) - 1) := by
    have h1 : (radicand data mean stddev).getD j 0
        = ((accumulate data mean stddev).stddev.getD j 0
            - (accumulate data mean stddev).mean.getD j 0
                * (accumulate data mean stddev).mean.getD j 0
              / (accumulate data mean stddev).samples)
          / ((accumulate data mean stddev).samples - 1) := by
      show (divScalar (vsub _ (divScalar (pow2 _) _)) _).getD j 0 = _
      rw [divScalar, getD_map _ _ j (by simp [vsub, divScalar, pow2, a1, a2]; omega)]
      rw [vsub, getD_zipWith _ _ _ j (by omega) (by simp [divScalar, pow2, a1]; omega)]
      rw [divScalar, getD_map _ _ j (by simp [pow2, a1]; omega)]
      rw [pow2, getD_map _ _ j (by omega)]
    rw [h1, em, sum_sq_sub (fun x => x.getD j 0), b1, b2, a3]
    congr 1
    field_simp
    ring
  exact ⟨em, er, by
    rw [← er]
    show ((radicand data mean stddev).map sqrt).getD j 0 = _
    exact getD_map _ _ j (by omega)⟩

/-- Witness of C6: the three arrays of `exampleData`, component 0. -/
theorem evaluateStdNormParameters_unbiased_witness :
    (evaluateStdNormParameters id exampleData [9, 9] [9, 9]).1.getD 0 0
        = ((allSamples exampleData).map fun x => x.getD 0 0).sum
            / ((allSamples exampleData).length : ℚ) ∧
      (radicand exampleData [9, 9] [9, 9]).getD 0 0
        = ((allSamples exampleData).map fun x =>
            (x.getD 0 0 - (evaluateStdNormParameters id exampleData [9, 9] [9, 9]).1.getD 0 0)
              ^ 2).sum
          / (((allSamples exampleData).length : ℚ) - 1) ∧
      (evaluateStdNormParameters id exampleData [9, 9] [9, 9]).2.getD 0 0
        = id (((allSamples exampleData).map fun x =>
            (x.getD 0 0 - (evaluateStdNormParameters id exampleData [9, 9] [9, 9]).1.getD 0 0)
              ^ 2).sum
          / (((allSamples exampleData).length : ℚ) - 1)) :=
  (evaluateStdNormParameters_unbiased id exampleData [9, 9] [9, 9] 2
    (by decide) rfl rfl (by decide)).2.2.2 0 (by decide)

/-! ## Applying and inverting the normalisation -/

/-- The inner loop acts on the arrays held by the arrayset only. -/
theorem forEachIndexFrom_arrayset (f : Array1 → Array1) :
    ∀ (n i : Nat) (a : Arrayset),
      forEachIndexFrom (fun i (a : Arrayset) => a.set i (f (a.get i))) i n a
        = Arrayset.mk a.shape
            (forEachIndexFrom (fun i (m : List Array1) => m.set i (f (m.getD i []))) i n
              a.samples) := by
  intro n
  induction n with
  | zero => intro i a; rfl
  | succ n ih => intro i a; simp only [forEachIndexFrom]; rw [ih]; rfl

/-- The inner loop `for i: a.set(i, f(a.get(i)))` maps `f` over the arrays of the arrayset. -/
theorem forEachIndex_arrayset (f : Array1 → Array1) (a : Arrayset) :
    forEachIndex a.size (fun i (a : Arrayset) => a.set i (f (a.get i))) a = mapSamples f a := by
  unfold forEachIndex
  rw [forEachIndexFrom_arrayset]
  have := forEachIndex_set f [] a.samples
  unfold forEachIndex at this
  simp only [Arrayset.size, mapSamples]
  rw [this]

/-- The two nested loops map `f` over every array of every arrayset. -/
theorem forEachIndex_data (f : Array1 → Array1) (data : List Arrayset) :
    forEachIndex data.length
      (fun k (data : List Arrayset) =>
        data.set k
          (forEachIndex (elemAt data k).size (fun i (a : Arrayset) => a.set i (f (a.get i)))
            (elemAt data k)))
      data
      = data.map (mapSamples f) := by
  simp only [forEachIndex_arrayset]
  exact forEachIndex_set (mapSamples f) ⟨[], []⟩ data

/-- Function `applyStdNormParameters` as a map. -/
theorem applyStdNormParameters_eq_map (data : List Arrayset) (mean stddev : Array1) :
    applyStdNormParameters data mean stddev
      = data.map (mapSamples fun orig => vdiv (vsub orig mean) stddev) :=
  forEachIndex_data (fun orig => vdiv (vsub orig mean) stddev) data

/-- Function `invertApplyStdNormParameters` as a map. -/
theorem invertApplyStdNormParameters_eq_map (data : List Arrayset) (mean stddev : Array1) :
    invertApplyStdNormParameters data mean stddev
      = data.map (mapSamples fun orig => vadd (vmul orig stddev) mean) :=
  forEachIndex_data (fun orig => vadd (vmul orig stddev) mean) data

/-- On one array, with conforming extents and non-zero `stddev`, inverting undoes applying. -/
theorem invert_apply_array :
    ∀ (x mean stddev : Array1), x.length = mean.length → x.length = stddev.length →
      (∀ s ∈ stddev, s ≠ 0) →
      vadd (vmul (vdiv (vsub x mean) stddev) stddev) mean = x := by
  intro x
  induction x with
  | nil => intro mean stddev _ _ _; simp [vadd, vmul, vdiv, vsub]
  | cons a as ih =>
    intro mean stddev hm hs hz
    cases mean with
    | nil => simp at hm
    | cons m ms =>
      cases stddev with
      | nil => simp at hs
      | cons s ss =>
        have hs0 : s ≠ 0 := hz s (List.mem_cons_self _ _)
        have hss : ∀ t ∈ ss, t ≠ 0 := fun t ht => hz t (List.mem_cons_of_mem _ ht)
        have := ih ms ss (by simpa using hm) (by simpa using hs) hss
        simp only [vadd, vmul, vdiv, vsub, List.zipWith_cons_cons] at this ⊢
        rw [this]
        congr 1
        field_simp

/-- C7: when every component of `stddev` is non-zero and the arrays conform
with `mean` and `stddev` in extent, `invertApplyStdNormParameters` after
`applyStdNormParameters` with the same parameters gives back the data, array
by array; both functions keep the number of arraysets and the number of
arrays of each arrayset. -/
theorem invert_apply_restores (data : List Arrayset) (mean stddev : Array1)
    (hz : ∀ s ∈ stddev, s ≠ 0)
    (hconf : ∀ x ∈ allSamples data, x.length = mean.length ∧ x.length = stddev.length) :
    invertApplyStdNormParameters (applyStdNormParameters data mean stddev) mean stddev = data ∧
    (applyStdNormParameters data mean stddev).length = data.length ∧
    (∀ k, (elemAt (applyStdNormParameters data mean stddev) k).size = (elemAt data k).size) ∧
    (invertApplyStdNormParameters (applyStdNormParameters data mean stddev) mean stddev).length
      = data.length ∧
    (∀ k, (elemAt (invertApplyStdNormParameters (applyStdNormParameters data mean stddev)
        mean stddev) k).size = (elemAt data k).size) := by
  have hsize : ∀ (f : Array1 → Array1) (l : List Arrayset) (k : Nat),
      (elemAt (l.map (mapSamples f)) k).size = (elemAt l k).size := by
    intro f l k
    simp only [elemAt, List.getD_eq_getElem?_getD, List.getElem?_map]
    cases l[k]? <;> simp [Arrayset.size, mapSamples]
  have hround : invertApplyStdNormParameters (applyStdNormParameters data mean stddev)
      mean stddev = data := by
    rw [applyStdNormParameters_eq_map, invertApplyStdNormParameters_eq_map, List.map_map]
    conv_rhs => rw [← List.map_id data]
    apply List.map_congr_left
    intro a ha
    have hsamp : ∀ x ∈ a.samples, x ∈ allSamples data := by
      intro x hx
      simp only [allSamples, List.mem_flatten, List.mem_map]
      exact ⟨a.samples, ⟨a, ha, rfl⟩, hx⟩
    simp only [Function.comp, mapSamples, List.map_map, id]
    have : a.samples.map ((fun orig => vadd (vmul orig stddev) mean) ∘
        fun orig => vdiv (vsub orig mean) stddev) = a.samples := by
      conv_rhs => rw [← List.map_id a.samples]
      apply List.map_congr_left
      intro x hx
      obtain ⟨h1, h2⟩ := hconf x (hsamp x hx)
      simpa using invert_apply_array x mean stddev h1 h2 hz
    rw [this]
  refine ⟨hround, ?_, ?_, ?_, ?_⟩
  · rw [applyStdNormParameters_eq_map]; simp
  · intro k; rw [applyStdNormParameters_eq_map]; exact hsize _ _ k
  · rw [hround]
  · intro k; rw [hround]

/-- Witness of C7: `exampleData` normalised with mean `(1, 2)` and stddev
`(2, 4)` and back. -/
theorem invert_apply_restores_witness :
    invertApplyStdNormParameters (applyStdNormParameters exampleData [1, 2] [2, 4]) [1, 2] [2, 4]
      = exampleData :=
  (invert_apply_restores exampleData [1, 2] [2, 4]
    (by intro s hs; simp at hs; rcases hs with rfl | rfl <;> norm_num)
    (by decide)).1

end trainer
end Torch
